import Mathlib

/-!
# Verification of the wiki-slackbot answer-synthesis engine

A shallow embedding, in Lean 4, of the answer-synthesis pipeline of the
`wiki-slackbot` repository (`app/qa.py`, together with the text-cleaning
helper of `app/wiki_client.py`, the delegate client of
`app/openai_client.py` and the `ConversationState` rows of
`app/models.py`), and proofs about it.

Conventions of the embedding:
* Python strings are modelled as `List Char` (wrapped in `String` at the
  dataclass boundary).  Python `len`, slicing and `str.lower`/`str.strip`
  are modelled character-wise; the `\w` word-character class of Python's
  `re` module is modelled by its ASCII restriction (letters, digits and
  the underscore), used consistently on both the code side and the
  spec side of every statement.
* Collaborators reached over the network (Wikipedia search/fetch, the
  OpenAI client) are modelled as an explicit environment `Env` of
  response functions; a call that raises an exception which the source
  catches is modelled by the corresponding `Option`/failure value.
* The context store (`ConversationState` rows behind a SQLAlchemy
  session) is modelled as a list of rows threaded through the
  orchestrator; a raising read or raising write is modelled by the
  boolean flags `readRaises` / `writeRaises`, which make the embedded
  `try/except` blocks take their handler branch exactly as the source
  does.
-/

/-! ## Character-level utilities (Python string primitives) -/

/-- The whitespace characters stripped by Python's `str.strip()` /
collapsed by `\s` (ASCII part). -/
def isPySpace (c : Char) : Bool :=
  c = ' ' || c = '\t' || c = '\n' || c = '\r' || c = '\x0b' || c = '\x0c'

/-- ASCII restriction of Python's regex `\w` class: letters, digits,
underscore. -/
def isWordChar (c : Char) : Bool :=
  c.isAlphanum || c = '_'

/-- Python `str.lower()` (character-wise). -/
def toLowerL (s : List Char) : List Char :=
  s.map Char.toLower

/-- Python `str.lstrip()`. -/
def lstripL (s : List Char) : List Char :=
  s.dropWhile (fun c => isPySpace c)

/-- Python `str.rstrip()`. -/
def rstripL (s : List Char) : List Char :=
  (s.reverse.dropWhile (fun c => isPySpace c)).reverse

/-- Python `str.strip()`. -/
def stripL (s : List Char) : List Char :=
  rstripL (lstripL s)

/-- `needle` occurs at the start of `hay` (helper for substring search). -/
def leadsWith : List Char → List Char → Bool
  | [], _ => true
  | _ :: _, [] => false
  | n :: ns, h :: hs => n = h && leadsWith ns hs

/-- Python's `needle in hay` substring containment. -/
def containsSub (needle : List Char) : List Char → Bool
  | [] => leadsWith needle []
  | c :: rest => leadsWith needle (c :: rest) || containsSub needle rest

/-- Python `str.split()` (no separator): split on whitespace runs,
dropping empty fragments. -/
def splitWsL : List Char → List (List Char)
  | [] => []
  | c :: rest =>
    if isPySpace c then splitWsL rest
    else
      match splitWsL rest with
      | [] => [[c]]
      | w :: ws =>
        match rest with
        | [] => [[c]]
        | d :: _ => if isPySpace d then [c] :: w :: ws else (c :: w) :: ws

/-- `re.findall(r"\b\w+\b", s)`: the maximal runs of word characters. -/
def wordRuns : List Char → List (List Char)
  | [] => []
  | c :: rest =>
    if isWordChar c then
      match wordRuns rest with
      | [] => [[c]]
      | w :: ws =>
        match rest with
        | [] => [[c]]
        | d :: _ => if isWordChar d then (c :: w) :: ws else [c] :: w :: ws
    else wordRuns rest

/-- Split on the single characters `.`, `!`, `?` (helper for
`re.split(r"[.!?]+", s)`; splitting on runs versus single delimiters is
indistinguishable once empty fragments are stripped away, which the
caller always does). -/
def splitDelims : List Char → List (List Char)
  | [] => [[]]
  | c :: rest =>
    if c = '.' || c = '!' || c = '?' then
      [] :: splitDelims rest
    else
      match splitDelims rest with
      | [] => [[c]]
      | f :: fs => (c :: f) :: fs

/-- Join a list of strings with a single-space separator
(Python `" ".join`). -/
def joinSpace : List (List Char) → List Char
  | [] => []
  | [s] => s
  | s :: rest => s ++ ' ' :: joinSpace rest

/-! ## `WikipediaClient.clean_text` (src/app/wiki_client.py)

`re.sub(r'\[\d+\]', '', text)`, then `re.sub(r'\s+', ' ', text)`, then
`re.sub(r'<[^>]+>', '', text)`, then `strip()`.  Each substitution is a
one-pass state machine over the characters. -/

/-- State machine for `re.sub(r'\[\d+\]', '', text)`: `none` = outside a
candidate marker, `some ds` = after `[` having read digits `ds`
(in reverse). -/
def removeRefsGo : Option (List Char) → List Char → List Char
  | none, [] => []
  | some ds, [] => '[' :: ds.reverse
  | none, c :: rest =>
    if c = '[' then removeRefsGo (some []) rest
    else c :: removeRefsGo none rest
  | some ds, c :: rest =>
    if c.isDigit then removeRefsGo (some (c :: ds)) rest
    else if c = ']' then
      match ds with
      | [] => '[' :: ']' :: removeRefsGo none rest
      | _ :: _ => removeRefsGo none rest
    else if c = '[' then ('[' :: ds.reverse) ++ removeRefsGo (some []) rest
    else ('[' :: ds.reverse) ++ c :: removeRefsGo none rest

/-- `re.sub(r'\[\d+\]', '', text)`: delete bracketed digit runs. -/
def removeRefs (s : List Char) : List Char :=
  removeRefsGo none s

/-- `re.sub(r'\s+', ' ', text)`: collapse each whitespace run to one
space. -/
def collapseWs : List Char → List Char
  | [] => []
  | c :: rest =>
    if isPySpace c then
      match rest with
      | [] => [' ']
      | d :: _ => if isPySpace d then collapseWs rest else ' ' :: collapseWs rest
    else c :: collapseWs rest

/-- State machine for `re.sub(r'<[^>]+>', '', text)`: `none` = outside a
tag, `some buf` = after `<` having read `buf` (in reverse),
no `>` seen yet. -/
def removeTagsGo : Option (List Char) → List Char → List Char
  | none, [] => []
  | some buf, [] => '<' :: buf.reverse
  | none, c :: rest =>
    if c = '<' then removeTagsGo (some []) rest
    else c :: removeTagsGo none rest
  | some buf, c :: rest =>
    if c = '>' then
      match buf with
      | [] => '<' :: '>' :: removeTagsGo none rest
      | _ :: _ => removeTagsGo none rest
    else removeTagsGo (some (c :: buf)) rest

/-- `re.sub(r'<[^>]+>', '', text)`: delete markup tags. -/
def removeTags (s : List Char) : List Char :=
  removeTagsGo none s

/-- `WikipediaClient.clean_text`: remove `[n]` reference markers,
collapse whitespace runs, remove tags, strip. -/
def clean_text (s : List Char) : List Char :=
  stripL (removeTags (collapseWs (removeRefs s)))

/-! ## Data model (src/app/wiki_client.py, src/app/qa.py dataclasses) -/

/-- `SearchResult` dataclass of src/app/wiki_client.py. -/
structure SearchResult where
  title : String
  snippet : String
  url : String
  page_id : Int
deriving DecidableEq

/-- `WikipediaArticle` dataclass of src/app/wiki_client.py
(`sections` defaults to `None`). -/
structure WikipediaArticle where
  title : String
  extract : String
  url : String
  page_id : Int
  sections : Option (List String) := none
deriving DecidableEq

/-- `Citation` dataclass of src/app/qa.py. -/
structure Citation where
  title : String
  url : String
  snippet : String
  page_id : Int
deriving DecidableEq

/-- `QAAnswer` dataclass of src/app/qa.py. -/
structure QAAnswer where
  answer : String
  citations : List Citation
  conversation_id : Option String := none
deriving DecidableEq

/-! ## `QAService` text helpers (src/app/qa.py) -/

/-- The stop-word set of `QAService._extract_keywords`. -/
def stop_words : List (List Char) :=
  ["the".data, "a".data, "an".data, "and".data, "or".data, "but".data,
   "in".data, "on".data, "at".data, "to".data, "for".data,
   "of".data, "with".data, "by".data, "is".data, "are".data, "was".data,
   "were".data, "be".data, "been".data, "have".data,
   "has".data, "had".data, "do".data, "does".data, "did".data,
   "will".data, "would".data, "could".data, "should".data,
   "what".data, "when".data, "where".data, "why".data, "how".data,
   "who".data, "which".data, "that".data, "this".data]

/-- `QAService._extract_keywords`: word tokens of the lowered text that
are not stop words and are longer than 2 characters. -/
def extract_keywords (text : List Char) : List (List Char) :=
  (wordRuns (toLowerL text)).filter
    (fun w => decide (w ∉ stop_words) && decide (2 < w.length))

/-- `QAService._split_into_sentences`: split on `[.!?]+`, strip each
fragment, drop the empty ones. -/
def split_into_sentences (text : List Char) : List (List Char) :=
  ((splitDelims text).map stripL).filter (fun s => !s.isEmpty)

/-- `QAService._score_sentence`: the number of keywords (counted with
multiplicity) occurring as substrings of the lowered sentence. -/
def score_sentence (sentence : List Char) (keywords : List (List Char)) : Nat :=
  (keywords.filter (fun k => containsSub k (toLowerL sentence))).length

/-! ## The Extractive Synthesizer (`QAService._synthesize_answer`) -/

/-- The combined text of `_synthesize_answer`: every article's cleaned
extract, prefixed by its title, appended to the accumulator. -/
def combinedText (articles : List WikipediaArticle) : List Char :=
  articles.foldl
    (fun acc a =>
      acc ++ '\n' :: '\n' :: a.title.data ++ ':' :: '\n' :: clean_text a.extract.data)
    []

/-- The scored-sentence list of `_synthesize_answer`: each sentence with
a positive score, paired with that score, in appearance order. -/
def scoredSentences (question : String) (articles : List WikipediaArticle) :
    List (Nat × List Char) :=
  let keywords := extract_keywords (toLowerL question.data)
  (split_into_sentences (combinedText articles)).filterMap
    (fun s =>
      let sc := score_sentence s keywords
      if 0 < sc then some (sc, s) else none)

/-- Insert into a score-descending list just before the first entry of
score not larger (the placement Python's stable descending sort gives an
element relative to the later elements it is inserted among). -/
def insertDesc (x : Nat × List Char) : List (Nat × List Char) → List (Nat × List Char)
  | [] => [x]
  | y :: ys => if y.1 ≤ x.1 then x :: y :: ys else y :: insertDesc x ys

/-- `scored_sentences.sort(key=lambda x: x[0], reverse=True)`: stable
sort by score descending (insertion sort, which is stable). -/
def sortDesc : List (Nat × List Char) → List (Nat × List Char)
  | [] => []
  | x :: xs => insertDesc x (sortDesc xs)

/-- The selection loop of `_synthesize_answer`: walk the given scored
sentences in order, appending each sentence not already used whose
stripped length exceeds 20. -/
def selectGo : List (Nat × List Char) → List (List Char) → List (List Char)
  | [], acc => acc
  | (_, s) :: rest, acc =>
    if decide (s ∉ acc) && decide (20 < (stripL s).length) then
      selectGo rest (acc ++ [s])
    else selectGo rest acc

/-- `scored_sentences[:5]`: the first 5 entries of the sorted scored
list, the only candidates the selection loop of `_synthesize_answer`
ever looks at. -/
def topScored (question : String) (articles : List WikipediaArticle) :
    List (Nat × List Char) :=
  (sortDesc (scoredSentences question articles)).take 5

/-- The `answer_parts` selected by `_synthesize_answer`: the selection
loop runs over the first 5 entries of the sorted scored list. -/
def selectedParts (question : String) (articles : List WikipediaArticle) :
    List (List Char) :=
  selectGo (topScored question articles) []

/-- The final hard truncation of `_synthesize_answer`: texts longer than
1000 characters are cut at 997 and get a trailing `"..."`. -/
def truncateAnswer (s : List Char) : List Char :=
  if 1000 < s.length then s.take 997 ++ "...".data else s

/-- The `answer_parts` of `_synthesize_answer` after its first
fallback: when the selection is empty, the first 3 sentences of the
first article's cleaned extract instead. -/
def answerParts (question : String) (articles : List WikipediaArticle) :
    List (List Char) :=
  let parts := selectedParts question articles
  if parts.isEmpty then
    match articles with
    | [] => parts
    | a :: _ => (split_into_sentences (clean_text a.extract.data)).take 3
  else parts

/-- The fixed message of `_synthesize_answer`'s last fallback. -/
def noCoherentMessage : String :=
  "I found some information but couldn't generate a coherent answer. Please try asking a more specific question."

/-- `QAService._synthesize_answer` (the `context` argument is accepted
and ignored, as in the source): join the selected parts with single
spaces, clean, and hard-truncate. -/
def synthesize_answer (question : String) (articles : List WikipediaArticle)
    (context : Option String) : String :=
  let parts := answerParts question articles
  if parts.isEmpty then noCoherentMessage
  else String.mk (truncateAnswer (clean_text (joinSpace parts)))

/-! ## `QAService._should_rewrite_question` (src/app/qa.py) -/

/-- The pronoun set of `_should_rewrite_question` (iterated by `any`, so
the iteration order of the Python set is irrelevant). -/
def pronouns : List (List Char) :=
  ["it".data, "they".data, "them".data, "this".data, "that".data,
   "those".data, "these".data, "he".data, "she".data, "him".data,
   "her".data, "there".data, "their".data]

/-- `p` matches at the head of `s`, followed by a word boundary (end of
string or a non-word character). -/
def wordMatchHere (p s : List Char) : Bool :=
  leadsWith p s &&
    match s.drop p.length with
    | [] => true
    | c :: _ => !isWordChar c

/-- Scan of `re.search(rf"\b{p}\b", s)`: try each position whose
preceding character (tracked in `prevWord`) is not a word character. -/
def wordSearchGo (p : List Char) : Bool → List Char → Bool
  | prevWord, [] => !prevWord && wordMatchHere p []
  | prevWord, c :: rest =>
    (!prevWord && wordMatchHere p (c :: rest)) || wordSearchGo p (isWordChar c) rest

/-- `re.search(rf"\b{p}\b", s)` succeeds: `p` occurs in `s` delimited by
word boundaries on both sides. -/
def containsWholeWord (p s : List Char) : Bool :=
  wordSearchGo p false s

/-- `QAService._should_rewrite_question`: empty normalized question →
false; at most 4 words → true; otherwise a whole-word pronoun match. -/
def should_rewrite_question (question : String) : Bool :=
  let normalized := toLowerL (stripL question.data)
  if normalized.isEmpty then false
  else if (splitWsL normalized).length ≤ 4 then true
  else pronouns.any (fun p => containsWholeWord p normalized)

/-- The `needsRewrite` heuristic exactly as the specification words it
(for the refinement check of the claim): true iff the normalized
(trimmed, lower-cased) question has at most 4 words or contains a
whole-word match of one of the pronouns.  Unlike the source, it has no
guard for the empty normalized question. -/
def needsRewriteSpec (question : String) : Bool :=
  let normalized := toLowerL (stripL question.data)
  (splitWsL normalized).length ≤ 4 || pronouns.any (fun p => containsWholeWord p normalized)

/-! ## The context store (src/app/models.py `ConversationState`,
src/app/qa.py `_get_conversation_context` / `_update_conversation_context`)

The `context` column is a JSON blob always written by
`_update_conversation_context` as the object
`{"last_question", "last_answer", "conversation_count"}`; it is modelled
as the parsed record `ContextData`.  A read or write whose database
operations raise (the `except Exception` branches of the source, which
also cover a JSON blob that fails to parse) is modelled by the
`readRaises` / `writeRaises` flags. -/

/-- The parsed conversation-context JSON blob. -/
structure ContextData where
  last_question : String
  last_answer : String
  conversation_count : Nat
deriving DecidableEq

/-- A `ConversationState` row (src/app/models.py); `last_updated` is an
abstract timestamp. -/
structure ConversationState where
  conversation_id : String
  installation_id : Int
  context : ContextData
  last_updated : Nat
deriving DecidableEq

/-- `session.query(ConversationState).filter(...).first()`: the first
row matching the `(conversation_id, installation_id)` key. -/
def findState : List ConversationState → String → Int → Option ConversationState
  | [], _, _ => none
  | st :: rest, c, i =>
    if st.conversation_id = c && st.installation_id = i then some st
    else findState rest c i

/-- `QAService._get_conversation_context`: `None` unless both ids are
truthy; the `last_answer` of the matching row, `None` when absent, and
`None` when the read raises (the `except` branch returns `None`). -/
def get_conversation_context (readRaises : Bool) (store : List ConversationState) :
    Option String → Option Int → Option String
  | some c, some i =>
    if c = "" || i = 0 then none
    else if readRaises then none
    else
      match findState store c i with
      | some st => some st.context.last_answer
      | none => none
  | _, _ => none

/-- The store transformation of `_update_conversation_context`'s happy
path: mutate the first row matching the key (overwriting question and
answer and incrementing the count), or add a fresh row with count 1 when
no row matches. -/
def upsertRows (c : String) (i : Int) (q a : String) (now : Nat) :
    List ConversationState → List ConversationState
  | [] => [⟨c, i, ⟨q, a, 1⟩, now⟩]
  | st :: rest =>
    if st.conversation_id = c && st.installation_id = i then
      { st with context := ⟨q, a, st.context.conversation_count + 1⟩,
                last_updated := now } :: rest
    else st :: upsertRows c i q a now rest

/-- `QAService._update_conversation_context`: on a raising write the
`except` branch rolls the session back, leaving the store unchanged;
otherwise the upsert is committed. -/
def update_conversation_context (writeRaises : Bool) (store : List ConversationState)
    (c : String) (i : Int) (q a : String) (now : Nat) : List ConversationState :=
  if writeRaises then store else upsertRows c i q a now store

/-! ## The delegate client (src/app/openai_client.py) and snippet cleaning -/

/-- `qa.py` calls `openai_client.rewrite_question(question=…, context=…)`
in `_rewrite_question_with_context`, but `OpenAIClient`
(src/app/openai_client.py) defines no `rewrite_question` method: the
call raises `AttributeError`, which the blanket `except Exception`
handler of `_rewrite_question_with_context` catches, returning `None`.
So in the repository as written every rewrite attempt yields `None`. -/
def rewrite_question_as_implemented (question context : String) : Option String :=
  none

/-- Lookup table for the embedded `html.unescape` (restricted to the
common named and one numeric entity; no claim inspects snippet text
beyond its presence). -/
def lookupEntity (name : List Char) : Option Char :=
  if name = "amp".data then some '&'
  else if name = "lt".data then some '<'
  else if name = "gt".data then some '>'
  else if name = "quot".data then some '"'
  else if name = "#39".data then some '\''
  else if name = "nbsp".data then some ' '
  else none

/-- State machine for the embedded `html.unescape`: `none` = outside an
entity, `some buf` = after `&` having read `buf` (in reverse). -/
def unescapeGo : Option (List Char) → List Char → List Char
  | none, [] => []
  | some buf, [] => '&' :: buf.reverse
  | none, c :: rest =>
    if c = '&' then unescapeGo (some []) rest
    else c :: unescapeGo none rest
  | some buf, c :: rest =>
    if c = ';' then
      match lookupEntity buf.reverse with
      | some ch => ch :: unescapeGo none rest
      | none => '&' :: buf.reverse ++ ';' :: unescapeGo none rest
    else if c = '&' then ('&' :: buf.reverse) ++ unescapeGo (some []) rest
    else unescapeGo (some (c :: buf)) rest

/-- Embedded `html.unescape` (restricted to the `lookupEntity` table). -/
def unescapeBasic (s : List Char) : List Char :=
  unescapeGo none s

/-- `QAService._clean_snippet`: empty snippets pass through; otherwise
unescape entities, strip tags, strip, and shorten to 117 characters
(right-stripped) plus `"..."` when longer than 120. -/
def clean_snippet (snippet : List Char) : List Char :=
  if snippet.isEmpty then []
  else
    let text := stripL (removeTags (unescapeBasic snippet))
    if 120 < text.length then rstripL (text.take 117) ++ "...".data else text

/-- `_clean_snippet` at the `String` boundary. -/
def clean_snippet_str (s : String) : String :=
  String.mk (clean_snippet s.data)

/-! ## The collaborator environment and the delegate-summarizer path -/

/-- Responses of the collaborators reached over the network during one
`answer_question` call.  `rewrite` is the behaviour of
`_rewrite_question_with_context` (`none` = failure swallowed by its
`except` handlers; in the repository as written it is constantly
`rewrite_question_as_implemented`, see there); `search`, `getArticle`
and `getArticleContent` are the Wikipedia client (whose transport
failures already collapse to `[]`/`None` inside the client); `summarize`
is `OpenAIClient.summarize` with `none` for a raised
`OpenAIClientError`. -/
structure Env where
  rewrite : String → String → Option String
  search : String → List SearchResult
  getArticle : String → Option WikipediaArticle
  getArticleContent : String → Option String
  summarize : String → String → String → Option String → Option String

/-- Python `str.splitlines` (scan helper; `cur` holds the current line
in reverse). -/
def splitLinesGo (cur : List Char) : List Char → List (List Char)
  | [] => [cur.reverse]
  | '\r' :: '\n' :: rest =>
    (match rest with
     | [] => [cur.reverse]
     | _ => cur.reverse :: splitLinesGo [] rest)
  | '\n' :: rest =>
    (match rest with
     | [] => [cur.reverse]
     | _ => cur.reverse :: splitLinesGo [] rest)
  | '\r' :: rest =>
    (match rest with
     | [] => [cur.reverse]
     | _ => cur.reverse :: splitLinesGo [] rest)
  | c :: rest => splitLinesGo (c :: cur) rest

/-- Python `str.splitlines`. -/
def splitlinesL : List Char → List (List Char)
  | [] => []
  | s => splitLinesGo [] s

/-- `"\n".join` (for the gathered Wikipedia lines). -/
def joinNewline : List (List Char) → List Char
  | [] => []
  | [l] => l
  | l :: rest => l ++ '\n' :: joinNewline rest

/-- `QAService._gather_wikipedia_lines`: the full article content (or,
when that is falsy, the short extract), reduced to its first 10
non-blank stripped lines; `none` when nothing is available. -/
def gather_wikipedia_lines (env : Env) (article : WikipediaArticle) : Option String :=
  let content :=
    match env.getArticleContent article.title with
    | some s => if s = "" then article.extract else s
    | none => article.extract
  if content = "" then none
  else
    let lines := ((splitlinesL content.data).map stripL).filter (fun l => !l.isEmpty)
    if lines.isEmpty then none
    else some (String.mk (joinNewline (lines.take 10)))

/-- `QAService._summarize_with_openai`: skip articles with no lines;
otherwise the delegate's summary, with a raised `OpenAIClientError`
caught to `None`. -/
def summarize_with_openai (env : Env) (question : String)
    (article : WikipediaArticle) (context : Option String) : Option String :=
  match gather_wikipedia_lines env article with
  | none => none
  | some lines => env.summarize question lines article.url context

/-- The summarization loop of `answer_question`: the first truthy
summary over the articles in order (`none` when every attempt yields a
falsy value, in which case the source falls through to the extractive
synthesizer). -/
def firstSummary (env : Env) (question : String) (context : Option String) :
    List WikipediaArticle → Option String
  | [] => none
  | a :: rest =>
    match summarize_with_openai env question a context with
    | some s => if s = "" then firstSummary env question context rest else some s
    | none => firstSummary env question context rest

/-! ## The Answer Orchestrator (`QAService.answer_question`) -/

/-- The fixed no-results message of `answer_question`. -/
def noResultsMessage : String :=
  "I couldn't find any relevant information about that topic on Wikipedia. Could you try rephrasing your question?"

/-- The fixed no-articles message of `answer_question`. -/
def noArticlesMessage : String :=
  "I found some search results but couldn't retrieve the detailed content. Please try asking a more specific question."

/-- The `query_question` of `answer_question`: the delegate rewrite of
the question when prior context exists (truthy), the heuristic fires and
the rewrite succeeds with a truthy result; the original question
otherwise. -/
def effectiveQuery (env : Env) (question : String) (context : Option String) : String :=
  match context with
  | some ctx =>
    if !(ctx = "") && should_rewrite_question question then
      match env.rewrite question ctx with
      | some r => if r = "" then question else r
      | none => question
    else question
  | none => question

/-- The `for result in search_results[:2]` loop data of
`answer_question`: each of the first 2 search results paired with its
fetch outcome. -/
def fetchedPairs (env : Env) (query : String) :
    List (SearchResult × Option WikipediaArticle) :=
  ((env.search query).take 2).map (fun r => (r, env.getArticle r.title))

/-- The `articles` list of `answer_question`: the successfully fetched
articles, in order. -/
def fetchedArticles (env : Env) (query : String) : List WikipediaArticle :=
  (fetchedPairs env query).filterMap Prod.snd

/-- The `citations` list of `answer_question`: one citation per
successfully fetched article, built from the fetched article together
with the cleaned raw-result snippet. -/
def articleCitations (env : Env) (query : String) : List Citation :=
  (fetchedPairs env query).filterMap (fun p =>
    p.2.map (fun art =>
      Citation.mk art.title art.url (clean_snippet_str p.1.snippet) art.page_id))

/-- The citations of the no-articles early return: built from the first
2 raw search results. -/
def rawCitations (env : Env) (query : String) : List Citation :=
  ((env.search query).take 2).map (fun r =>
    Citation.mk r.title r.url (clean_snippet_str r.snippet) r.page_id)

/-- `QAService.answer_question`, threading the context store through the
call: load context, maybe rewrite, search, fetch up to the first 2
articles, build citations, try the delegate summaries, fall through to
the extractive synthesizer, and upsert the conversation context when
both ids are truthy.  Returns the `QAAnswer` and the resulting store. -/
def answer_question (env : Env) (readRaises writeRaises : Bool)
    (store : List ConversationState) (now : Nat) (question : String)
    (conversation_id : Option String) (installation_id : Option Int) :
    QAAnswer × List ConversationState :=
  let context := get_conversation_context readRaises store conversation_id installation_id
  let query_question := effectiveQuery env question context
  let search_results := env.search query_question
  if search_results.isEmpty then
    (⟨noResultsMessage, [], conversation_id⟩, store)
  else
    let articles := fetchedArticles env query_question
    if articles.isEmpty then
      (⟨noArticlesMessage, rawCitations env query_question, conversation_id⟩, store)
    else
      let summary_text := firstSummary env query_question context articles
      let answer_text :=
        match summary_text with
        | some s => s
        | none =>
          synthesize_answer (if query_question = "" then question else query_question)
            articles context
      let finalStore :=
        match conversation_id, installation_id with
        | some c, some i =>
          if c = "" || i = 0 then store
          else update_conversation_context writeRaises store c i question answer_text now
        | _, _ => store
      (⟨answer_text, articleCitations env query_question, conversation_id⟩, finalStore)

/-! ## Store invariants and concrete fixtures -/

/-- At most one row per `(conversation_id, installation_id)` key. -/
def NoDupKeys (store : List ConversationState) : Prop :=
  store.Pairwise (fun s t =>
    ¬(s.conversation_id = t.conversation_id ∧ s.installation_id = t.installation_id))

/-- A search result with an empty snippet, for the concrete runs. -/
def srParis : SearchResult :=
  { title := "Paris", snippet := "", url := "https://w/Paris", page_id := 7 }

/-- A concrete fetched article, for the concrete runs. -/
def artParis : WikipediaArticle :=
  { title := "Paris"
    extract := "Paris is the capital of France and its largest city. The Eiffel Tower stands in Paris."
    url := "https://w/Paris", page_id := 7 }

/-- Environment whose delegate summary is 1001 characters long. -/
def envLongSummary : Env :=
  { rewrite := fun _ _ => none
    search := fun _ => [srParis]
    getArticle := fun _ => some artParis
    getArticleContent := fun _ => none
    summarize := fun _ _ _ _ => some (String.mk (List.replicate 1001 'a')) }

/-- Environment whose delegate rewrite succeeds and whose delegate
summaries all fail. -/
def envRewriteOnly : Env :=
  { rewrite := fun _ _ => some "france capital city"
    search := fun _ => [srParis]
    getArticle := fun _ => some artParis
    getArticleContent := fun _ => none
    summarize := fun _ _ _ _ => none }

/-- Environment with no delegate at all (every call fails). -/
def envNoDelegate : Env :=
  { rewrite := fun _ _ => none
    search := fun _ => [srParis]
    getArticle := fun _ => some artParis
    getArticleContent := fun _ => none
    summarize := fun _ _ _ _ => none }

/-- Environment whose search finds nothing. -/
def envNoResults : Env :=
  { rewrite := fun _ _ => none
    search := fun _ => []
    getArticle := fun _ => some artParis
    getArticleContent := fun _ => none
    summarize := fun _ _ _ _ => none }

/-- A stored conversation row holding prior context. -/
def rowParis : ConversationState :=
  { conversation_id := "c1", installation_id := 1
    context := { last_question := "q0"
                 last_answer := "Paris is the capital of France.", conversation_count := 1 }
    last_updated := 0 }

/-- Question/article pair on which five sentences qualify for selection
(positive score, stripped length over 20) yet only four are selected,
because the top-scored sentence is short and still occupies one of the
five candidate slots. -/
def artShortTop : WikipediaArticle :=
  { title := "T"
    extract := "machine machine. The learning algorithm one improves nicely. The learning algorithm two improves nicely. The learning algorithm three improves nicely. The learning algorithm four improves nicely. The learning algorithm five improves nicely."
    url := "u", page_id := 1 }

/-- The question paired with `artShortTop` (repeated keyword, so the
short sentence outscores the qualifying ones). -/
def qShortTop : String := "machine machine machine learning"

/-! ## Helper lemmas -/

theorem selectGo_length (l : List (Nat × List Char)) (acc : List (List Char)) :
    (selectGo l acc).length ≤ acc.length + l.length := by
  induction l generalizing acc with
  | nil => simp [selectGo]
  | cons p rest ih =>
    cases p with
    | mk sc s =>
      simp only [selectGo, List.length_cons]
      split
      · have h := ih (acc ++ [s])
        simp only [List.length_append, List.length_cons, List.length_nil] at h
        omega
      · have h := ih acc
        omega

theorem selectGo_mem (l : List (Nat × List Char)) (acc : List (List Char)) :
    ∀ s ∈ selectGo l acc,
      s ∈ acc ∨ ∃ sc, (sc, s) ∈ l ∧ 20 < (stripL s).length := by
  induction l generalizing acc with
  | nil => intro s hs; exact Or.inl hs
  | cons p rest ih =>
    cases p with
    | mk sc t =>
      intro s hs
      simp only [selectGo] at hs
      split at hs
      · rename_i hcond
        simp only [Bool.and_eq_true, decide_eq_true_eq] at hcond
        rcases ih (acc ++ [t]) s hs with h | ⟨sc', h1, h2⟩
        · rcases List.mem_append.mp h with h | h
          · exact Or.inl h
          · simp only [List.mem_singleton] at h
            subst h
            exact Or.inr ⟨sc, List.mem_cons_self .., hcond.2⟩
        · exact Or.inr ⟨sc', List.mem_cons_of_mem _ h1, h2⟩
      · rcases ih acc s hs with h | ⟨sc', h1, h2⟩
        · exact Or.inl h
        · exact Or.inr ⟨sc', List.mem_cons_of_mem _ h1, h2⟩

theorem selectGo_nodup (l : List (Nat × List Char)) (acc : List (List Char))
    (h : acc.Nodup) : (selectGo l acc).Nodup := by
  induction l generalizing acc with
  | nil => exact h
  | cons p rest ih =>
    cases p with
    | mk sc t =>
      simp only [selectGo]
      split
      · rename_i hcond
        simp only [Bool.and_eq_true, decide_eq_true_eq] at hcond
        refine ih (acc ++ [t]) ?_
        simp [List.nodup_append, h, hcond.1]
      · exact ih acc h

theorem selectGo_all (l : List (Nat × List Char)) (acc : List (List Char))
    (hdisj : ∀ p ∈ l, p.2 ∉ acc)
    (hnd : (l.map Prod.snd).Nodup)
    (hlong : ∀ p ∈ l, 20 < (stripL p.2).length) :
    selectGo l acc = acc ++ l.map Prod.snd := by
  induction l generalizing acc with
  | nil => simp [selectGo]
  | cons p rest ih =>
    cases p with
    | mk sc t =>
      simp only [selectGo]
      have ht : t ∉ acc := hdisj (sc, t) (List.mem_cons_self ..)
      have hl : 20 < (stripL t).length := hlong (sc, t) (List.mem_cons_self ..)
      rw [if_pos (by simp [ht, hl])]
      simp only [List.map_cons, List.nodup_cons] at hnd
      rw [ih (acc ++ [t]) ?_ hnd.2 (fun p hp => hlong p (List.mem_cons_of_mem _ hp))]
      · simp
      · intro p hp
        simp only [List.mem_append, List.mem_singleton]
        rintro (h | h)
        · exact hdisj p (List.mem_cons_of_mem _ hp) h
        · exact hnd.1 (h ▸ List.mem_map_of_mem Prod.snd hp)

theorem insertDesc_perm (x : Nat × List Char) (l : List (Nat × List Char)) :
    List.Perm (insertDesc x l) (x :: l) := by
  induction l with
  | nil => simp [insertDesc]
  | cons y ys ih =>
    simp only [insertDesc]
    split
    · exact List.Perm.refl _
    · exact ((ih.cons y).trans (List.Perm.swap x y ys))

theorem sortDesc_perm (l : List (Nat × List Char)) :
    List.Perm (sortDesc l) l := by
  induction l with
  | nil => simp [sortDesc]
  | cons x xs ih =>
    exact (insertDesc_perm x (sortDesc xs)).trans (ih.cons x)

theorem scoredSentences_pos (q : String) (arts : List WikipediaArticle) :
    ∀ p ∈ scoredSentences q arts, 0 < p.1 := by
  intro p hp
  simp only [scoredSentences, List.mem_filterMap] at hp
  obtain ⟨s, _, hs⟩ := hp
  split at hs
  · cases hs; assumption
  · cases hs

theorem truncateAnswer_length (s : List Char) :
    (truncateAnswer s).length ≤ 1000 := by
  unfold truncateAnswer
  split
  · simp [List.length_take]
  · omega

theorem synthesize_answer_length (q : String) (arts : List WikipediaArticle)
    (ctx : Option String) : (synthesize_answer q arts ctx).length ≤ 1000 := by
  show (if (answerParts q arts).isEmpty then noCoherentMessage
    else String.mk (truncateAnswer (clean_text (joinSpace (answerParts q arts))))).length ≤ 1000
  split
  · decide
  · exact truncateAnswer_length _

theorem firstSummary_none (env : Env)
    (hsum : ∀ t c u x, env.summarize t c u x = none) (q : String)
    (ctx : Option String) (arts : List WikipediaArticle) :
    firstSummary env q ctx arts = none := by
  induction arts with
  | nil => rfl
  | cons a rest ih =>
    simp only [firstSummary, summarize_with_openai]
    cases gather_wikipedia_lines env a with
    | none => exact ih
    | some lines => simp [hsum, ih]

theorem get_conversation_context_raises (store : List ConversationState)
    (cid : Option String) (iid : Option Int) :
    get_conversation_context true store cid iid = none := by
  cases cid with
  | none => rfl
  | some c =>
    cases iid with
    | none => rfl
    | some i =>
      simp only [get_conversation_context]
      split <;> rfl

theorem get_conversation_context_empty (cid : Option String) (iid : Option Int)
    (rR : Bool) : get_conversation_context rR [] cid iid = none := by
  cases cid with
  | none => rfl
  | some c =>
    cases iid with
    | none => rfl
    | some i =>
      simp only [get_conversation_context, findState]
      split
      · rfl
      · split <;> rfl

theorem selectGo_sublist (l : List (Nat × List Char)) (acc : List (List Char)) :
    ∃ l', selectGo l acc = acc ++ l' ∧ l'.Sublist (l.map Prod.snd) := by
  induction l generalizing acc with
  | nil => exact ⟨[], by simp [selectGo]⟩
  | cons p rest ih =>
    cases p with
    | mk sc t =>
      simp only [selectGo]
      split
      · obtain ⟨l', h1, h2⟩ := ih (acc ++ [t])
        exact ⟨t :: l', by simpa using h1, by simpa using h2.cons₂ t⟩
      · obtain ⟨l', h1, h2⟩ := ih acc
        exact ⟨l', h1, h2.cons t⟩

theorem articleCitations_le (env : Env) (query : String) :
    (articleCitations env query).length ≤ 2 := by
  have h1 : (articleCitations env query).length ≤ (fetchedPairs env query).length :=
    List.length_filterMap_le _ _
  have h2 : (fetchedPairs env query).length ≤ 2 := by
    simp only [fetchedPairs, List.length_map]
    exact List.length_take_le 2 _
  omega

theorem rawCitations_le (env : Env) (query : String) :
    (rawCitations env query).length ≤ 2 := by
  simp only [rawCitations, List.length_map]
  exact List.length_take_le 2 _

theorem upsertRows_absent (store : List ConversationState) (c : String) (i : Int)
    (q a : String) (now : Nat) (h : findState store c i = none) :
    upsertRows c i q a now store = store ++ [⟨c, i, ⟨q, a, 1⟩, now⟩] := by
  induction store with
  | nil => rfl
  | cons st rest ih =>
    by_cases hm : (st.conversation_id = c && st.installation_id = i) = true
    · exfalso
      unfold findState at h
      rw [if_pos hm] at h
      cases h
    · unfold findState at h
      rw [if_neg hm] at h
      simp only [upsertRows, if_neg hm, List.cons_append, List.cons.injEq, true_and]
      exact ih h

theorem upsertRows_present (store : List ConversationState) (c : String) (i : Int)
    (q a : String) (now : Nat) (st0 : ConversationState)
    (h : findState store c i = some st0) :
    findState (upsertRows c i q a now store) c i
        = some ⟨st0.conversation_id, st0.installation_id,
            ⟨q, a, st0.context.conversation_count + 1⟩, now⟩ ∧
      (upsertRows c i q a now store).length = store.length := by
  induction store with
  | nil => cases h
  | cons st rest ih =>
    by_cases hm : (st.conversation_id = c && st.installation_id = i) = true
    · unfold findState at h
      rw [if_pos hm] at h
      cases h
      simp only [upsertRows, if_pos hm, List.length_cons, and_true]
      unfold findState
      rw [if_pos (by simpa using hm)]
    · unfold findState at h
      rw [if_neg hm] at h
      obtain ⟨ih1, ih2⟩ := ih h
      simp only [upsertRows, if_neg hm, List.length_cons, ih2, and_true]
      unfold findState
      rw [if_neg hm]
      exact ih1

theorem upsertRows_mem (store : List ConversationState) (c : String) (i : Int)
    (q a : String) (now : Nat) :
    ∀ t ∈ upsertRows c i q a now store,
      t ∈ store ∨ (t.conversation_id = c ∧ t.installation_id = i) := by
  induction store with
  | nil =>
    intro t ht
    simp only [upsertRows, List.mem_singleton] at ht
    subst ht
    exact Or.inr ⟨rfl, rfl⟩
  | cons st rest ih =>
    intro t ht
    by_cases hm : (st.conversation_id = c && st.installation_id = i) = true
    · simp only [upsertRows, if_pos hm, List.mem_cons] at ht
      simp only [Bool.and_eq_true, decide_eq_true_eq] at hm
      rcases ht with ht | ht
      · subst ht
        exact Or.inr ⟨hm.1, hm.2⟩
      · exact Or.inl (List.mem_cons_of_mem _ ht)
    · simp only [upsertRows, if_neg hm, List.mem_cons] at ht
      rcases ht with ht | ht
      · exact Or.inl (ht ▸ List.mem_cons_self ..)
      · rcases ih t ht with h | h
        · exact Or.inl (List.mem_cons_of_mem _ h)
        · exact Or.inr h

theorem upsertRows_nodup (store : List ConversationState) (c : String) (i : Int)
    (q a : String) (now : Nat) (h : NoDupKeys store) :
    NoDupKeys (upsertRows c i q a now store) := by
  induction store with
  | nil => simp [upsertRows, NoDupKeys]
  | cons st rest ih =>
    rcases List.pairwise_cons.mp h with ⟨hforall, hrest⟩
    by_cases hm : (st.conversation_id = c && st.installation_id = i) = true
    · simp only [upsertRows, if_pos hm]
      refine List.pairwise_cons.mpr ⟨?_, hrest⟩
      intro t ht
      exact hforall t ht
    · simp only [upsertRows, if_neg hm]
      refine List.pairwise_cons.mpr ⟨?_, ih hrest⟩
      intro t ht hk
      rcases upsertRows_mem rest c i q a now t ht with hmem | hkey
      · exact hforall t hmem hk
      · simp only [Bool.and_eq_true, decide_eq_true_eq, not_and] at hm
        exact hm (hk.1.trans hkey.1) (hk.2.trans hkey.2)

/-! ## The claims -/

set_option maxRecDepth 100000

/-- **C1** (counterexample to the claim as stated): the claim bounds the
answer text of `answer_question` by 1000 characters for every
delegate-summarizer result, but a delegate summary is used verbatim: in
an environment whose delegate returns a 1001-character summary, the
returned answer text is 1001 characters long. -/
theorem C1_counterexample :
    1000 <
      ((answer_question envLongSummary false false [] 0 "What is Paris?"
        none none).1.answer).length := by
  decide

/-- **C1** (amended): the extractive synthesizer's output is always at
most 1000 characters, with texts longer than 1000 cut at 997 characters
plus a trailing `"..."`; consequently, whenever every delegate
summarization attempt fails, the answer text returned by
`answer_question` is at most 1000 characters.  (Delegate-produced
answers are passed through without truncation and may be longer.) -/
theorem C1_amended :
    (∀ q arts ctx, (synthesize_answer q arts ctx).length ≤ 1000) ∧
    (∀ s : List Char, 1000 < s.length → truncateAnswer s = s.take 997 ++ "...".data) ∧
    (∀ env rR wR store now q cid iid,
      (∀ t c u x, Env.summarize env t c u x = none) →
        ((answer_question env rR wR store now q cid iid).1.answer).length ≤ 1000) := by
  refine ⟨synthesize_answer_length, ?_, ?_⟩
  · intro s hs
    simp [truncateAnswer, hs]
  · intro env rR wR store now q cid iid hsum
    simp only [answer_question]
    split
    · show noResultsMessage.length ≤ 1000
      decide
    · split
      · show noArticlesMessage.length ≤ 1000
        decide
      · simp only [firstSummary_none env hsum]
        exact synthesize_answer_length _ _ _

/-- **C1** witness: the amended bound applied to a concrete run in
which the delegate always fails. -/
theorem C1_witness :
    ((answer_question envNoDelegate false false [] 0 "What is Paris?"
      none none).1.answer).length ≤ 1000 :=
  C1_amended.2.2 envNoDelegate false false [] 0 "What is Paris?" none none
    (fun _ _ _ _ => rfl)

/-- **C2** (counterexample to the claim as stated): a concrete run in
which the question was rewritten and every delegate summarization
attempt failed, yet the extractive synthesizer received the rewritten
question — its answer equals the synthesis of the rewritten question and
differs from the synthesis of the original question
(`synth_question = query_question or question` in src/app/qa.py uses the
rewritten query, not the original). -/
theorem C2_counterexample :
    (answer_question envRewriteOnly false false [rowParis] 5 "what about it"
        (some "c1") (some 1)).1.answer
        = synthesize_answer "france capital city" [artParis]
            (some "Paris is the capital of France.") ∧
      synthesize_answer "france capital city" [artParis]
          (some "Paris is the capital of France.")
        ≠ synthesize_answer "what about it" [artParis]
            (some "Paris is the capital of France.") := by
  constructor <;> decide

/-- **C2** (amended): when the question was rewritten (prior context is
truthy, the heuristic fires and the delegate rewrite returns a truthy
result) and every delegate summarization attempt fails, the extractive
synthesizer is invoked with the **rewritten** question, not the
original. -/
theorem C2_amended (env : Env) (wR : Bool) (store : List ConversationState)
    (now : Nat) (q : String) (cid : Option String) (iid : Option Int)
    (ctxs r : String)
    (hctx : get_conversation_context false store cid iid = some ctxs)
    (hc : ctxs ≠ "")
    (hsr : should_rewrite_question q = true)
    (hrw : env.rewrite q ctxs = some r)
    (hr : r ≠ "")
    (hsearch : (env.search r).isEmpty = false)
    (hart : (fetchedArticles env r).isEmpty = false)
    (hsum : ∀ t c u x, env.summarize t c u x = none) :
    (answer_question env false wR store now q cid iid).1.answer
      = synthesize_answer r (fetchedArticles env r) (some ctxs) := by
  have hq : effectiveQuery env q (some ctxs) = r := by
    simp [effectiveQuery, hc, hsr, hrw, hr]
  simp only [answer_question, hctx, hq, hsearch, Bool.false_eq_true, if_false, hart,
    firstSummary_none env hsum, hr, if_neg]

/-- **C2** witness: the amended statement applied to the concrete
counterexample run. -/
theorem C2_witness :
    (answer_question envRewriteOnly false false [rowParis] 5 "what about it"
        (some "c1") (some 1)).1.answer
      = synthesize_answer "france capital city"
          (fetchedArticles envRewriteOnly "france capital city")
          (some "Paris is the capital of France.") :=
  C2_amended envRewriteOnly false [rowParis] 5 "what about it" (some "c1") (some 1)
    "Paris is the capital of France." "france capital city"
    (by decide) (by decide) (by decide) rfl (by decide) rfl rfl
    (fun _ _ _ _ => rfl)

/-- **C3**: `answer_question` never propagates a context-store failure:
with a raising read and a raising write it still returns a `QAAnswer`
(the same one a run with no stored context returns, since the raising
read degrades to "no context"), the store is left unchanged, and the
caller's conversation id is passed through. -/
theorem C3_store_failures_swallowed (env : Env) (store : List ConversationState)
    (now : Nat) (q : String) (cid : Option String) (iid : Option Int) :
    answer_question env true true store now q cid iid
        = ((answer_question env false false [] now q cid iid).1, store) ∧
      (answer_question env true true store now q cid iid).1.conversation_id = cid := by
  have hmain : answer_question env true true store now q cid iid
      = ((answer_question env false false [] now q cid iid).1, store) := by
    simp only [answer_question, get_conversation_context_raises,
      get_conversation_context_empty]
    by_cases h1 : (env.search (effectiveQuery env q none)).isEmpty
    · simp [h1]
    · by_cases h2 : (fetchedArticles env (effectiveQuery env q none)).isEmpty
      · simp [h1, h2]
      · simp only [h1, h2, Bool.false_eq_true, if_false]
        cases cid with
        | none => rfl
        | some c =>
          cases iid with
          | none => rfl
          | some i =>
            simp [update_conversation_context]
  refine ⟨hmain, ?_⟩
  rw [hmain]
  show (answer_question env false false [] now q cid iid).1.conversation_id = cid
  simp only [answer_question]
  split
  · rfl
  · split
    · rfl
    · rfl

/-- **C4** (counterexample to the claim as stated): an input on which
exactly 5 sentences have positive score and stripped length over 20,
yet only 4 sentences are selected — the selection loop only examines
`scored_sentences[:5]`, and here the top-scored sentence is too short,
wasting one of the five slots. -/
theorem C4_counterexample :
    ((split_into_sentences (combinedText [artShortTop])).filter
        (fun s =>
          decide (0 < score_sentence s (extract_keywords (toLowerL qShortTop.data))) &&
            decide (20 < (stripL s).length))).length = 5 ∧
      (selectedParts qShortTop [artShortTop]).length = 4 := by
  constructor <;> decide

/-- **C4** (amended): the selection draws only from the first 5 entries
of the stable score-descending sort: at most 5 sentences are selected,
each selected sentence is one of those first 5 entries, has positive
score and stripped length over 20, exact-text duplicates are skipped,
and the sorted order is preserved (the selection is a sublist); when all
of the first 5 sorted entries are pairwise distinct and longer than 20
characters, every one of them is selected — but 5 qualifying sentences
elsewhere in the input do not guarantee 5 selections. -/
theorem C4_amended (q : String) (arts : List WikipediaArticle) :
    (selectedParts q arts).length ≤ 5 ∧
    (selectedParts q arts).Nodup ∧
    (selectedParts q arts).Sublist ((topScored q arts).map Prod.snd) ∧
    (∀ s ∈ selectedParts q arts,
        20 < (stripL s).length ∧ ∃ sc, (sc, s) ∈ topScored q arts ∧ 0 < sc) ∧
    (((topScored q arts).map Prod.snd).Nodup →
      (∀ p ∈ topScored q arts, 20 < (stripL p.2).length) →
        selectedParts q arts = (topScored q arts).map Prod.snd) := by
  refine ⟨?_, ?_, ?_, ?_, ?_⟩
  · have h := selectGo_length (topScored q arts) []
    have h2 : (topScored q arts).length ≤ 5 := List.length_take_le 5 _
    simp only [selectedParts]
    simp only [List.length_nil, Nat.zero_add] at h
    omega
  · exact selectGo_nodup _ _ List.nodup_nil
  · obtain ⟨l', h1, h2⟩ := selectGo_sublist (topScored q arts) []
    simpa [selectedParts, h1] using h2
  · intro s hs
    rcases selectGo_mem _ _ s hs with h | ⟨sc, h1, h2⟩
    · cases h
    · refine ⟨h2, sc, h1, ?_⟩
      have hmem : (sc, s) ∈ sortDesc (scoredSentences q arts) :=
        List.take_subset 5 _ h1
      exact scoredSentences_pos q arts _ ((sortDesc_perm _).subset hmem)
  · intro hnd hlong
    have h := selectGo_all (topScored q arts) [] (by simp) hnd hlong
    simpa [selectedParts] using h

/-- **C4** witness: the full-selection clause of the amended statement
applied to a concrete input whose first sorted entries are distinct and
long. -/
theorem C4_witness :
    selectedParts "france capital city" [artParis]
      = (topScored "france capital city" [artParis]).map Prod.snd :=
  (C4_amended "france capital city" [artParis]).2.2.2.2 (by decide) (by decide)

/-- **C5** (counterexample to the claim as stated): the claimed
equivalence fails on the empty question — its normalized form has 0
(hence at most 4) words, so the claim requires `needsRewrite` to be
true, but `_should_rewrite_question` returns false for a falsy
normalized question. -/
theorem C5_counterexample :
    should_rewrite_question "" = false ∧ needsRewriteSpec "" = true ∧
      (splitWsL (toLowerL (stripL "".data))).length ≤ 4 := by
  refine ⟨by decide, by decide, by decide⟩

/-- **C5** (amended): `_should_rewrite_question` returns true iff the
normalized (trimmed, lower-cased) question is **non-empty** and (has at
most 4 words or contains a whole-word match of one of the 13 pronouns);
on an empty normalized question it returns false even though such a
question has at most 4 words. -/
theorem C5_amended (q : String) :
    should_rewrite_question q
      = (!(toLowerL (stripL q.data)).isEmpty && needsRewriteSpec q) := by
  unfold should_rewrite_question needsRewriteSpec
  cases hne : (toLowerL (stripL q.data)).isEmpty with
  | true => simp [hne]
  | false =>
    by_cases h4 : (splitWsL (toLowerL (stripL q.data))).length ≤ 4
    · simp [hne, h4]
    · simp [hne, h4]

/-- **C6**: the specification's `rewriteQuestion` contract is not
implemented: `OpenAIClient` exposes no `rewrite_question` method, so the
call in `_rewrite_question_with_context` raises `AttributeError`,
swallowed by its blanket handler — every rewrite attempt returns `None`
instead of text or a `DelegateError`. -/
theorem C6_rewrite_unimplemented (q ctx : String) :
    rewrite_question_as_implemented q ctx = none :=
  rfl

/-- **C7**: upsert contract of `_update_conversation_context` on a
committing write: an absent `(conversation_id, installation_id)` key
appends exactly one row with count 1; a present key leaves the row count
unchanged and the first matching row is overwritten with the new
question/answer and its count incremented by exactly 1; and the
one-row-per-key invariant is preserved. -/
theorem C7_upsert (store : List ConversationState) (c : String) (i : Int)
    (q a : String) (now : Nat) :
    (findState store c i = none →
      update_conversation_context false store c i q a now
        = store ++ [⟨c, i, ⟨q, a, 1⟩, now⟩]) ∧
    (∀ st, findState store c i = some st →
      findState (update_conversation_context false store c i q a now) c i
          = some ⟨st.conversation_id, st.installation_id,
              ⟨q, a, st.context.conversation_count + 1⟩, now⟩ ∧
        (update_conversation_context false store c i q a now).length
          = store.length) ∧
    (NoDupKeys store → NoDupKeys (update_conversation_context false store c i q a now)) :=
  ⟨fun h => upsertRows_absent store c i q a now h,
   fun st h => upsertRows_present store c i q a now st h,
   fun h => upsertRows_nodup store c i q a now h⟩

/-- **C7** witness: a fresh key gets count 1; upserting the same key
again increments the stored count to 2. -/
theorem C7_witness :
    update_conversation_context false [] "c1" 1 "q1" "a1" 3
        = [⟨"c1", 1, ⟨"q1", "a1", 1⟩, 3⟩] ∧
      findState
          (update_conversation_context false [⟨"c1", 1, ⟨"q1", "a1", 1⟩, 3⟩]
            "c1" 1 "q2" "a2" 4) "c1" 1
        = some ⟨"c1", 1, ⟨"q2", "a2", 2⟩, 4⟩ :=
  ⟨(C7_upsert [] "c1" 1 "q1" "a1" 3).1 (by decide),
   ((C7_upsert [⟨"c1", 1, ⟨"q1", "a1", 1⟩, 3⟩] "c1" 1 "q2" "a2" 4).2.1
      ⟨"c1", 1, ⟨"q1", "a1", 1⟩, 3⟩ (by decide)).1⟩

/-- **C8**: for every environment, store behaviour and input, the
citation list of the answer returned by `answer_question` has length 0,
1 or 2. -/
theorem C8_citations_bounded (env : Env) (rR wR : Bool)
    (store : List ConversationState) (now : Nat) (q : String)
    (cid : Option String) (iid : Option Int) :
    ((answer_question env rR wR store now q cid iid).1.citations).length = 0 ∨
      ((answer_question env rR wR store now q cid iid).1.citations).length = 1 ∨
      ((answer_question env rR wR store now q cid iid).1.citations).length = 2 := by
  have hb : ((answer_question env rR wR store now q cid iid).1.citations).length ≤ 2 := by
    simp only [answer_question]
    split
    · simp
    · split
      · exact rawCitations_le env _
      · exact articleCitations_le env _
  omega

/-- **C9**: the Extractive Synthesizer is deterministic — it is embedded
as a pure function of the question, the article list and the optional
context (the source touches no clock, randomness or iteration-order
dependent state: its only set is used solely for membership tests), so
two runs on equal inputs return identical text. -/
theorem C9_synthesizer_deterministic (q₁ q₂ : String)
    (a₁ a₂ : List WikipediaArticle) (c₁ c₂ : Option String)
    (hq : q₁ = q₂) (ha : a₁ = a₂) (hc : c₁ = c₂) :
    synthesize_answer q₁ a₁ c₁ = synthesize_answer q₂ a₂ c₂ := by
  subst hq; subst ha; subst hc; rfl

/-- **C9** witness: two runs on a concrete fixed input. -/
theorem C9_witness :
    synthesize_answer "What is Paris?" [artParis] none
      = synthesize_answer "What is Paris?" [artParis] none :=
  C9_synthesizer_deterministic "What is Paris?" "What is Paris?" [artParis] [artParis]
    none none rfl rfl rfl

/-- **C10**: on the two early-return paths — search found nothing, or
every article fetch failed — `answer_question` leaves the context store
untouched, whatever conversation and installation ids were supplied. -/
theorem C10_early_returns_no_write (env : Env) (rR wR : Bool)
    (store : List ConversationState) (now : Nat) (q : String)
    (cid : Option String) (iid : Option Int)
    (h : (∀ s, env.search s = []) ∨ (∀ t, env.getArticle t = none)) :
    (answer_question env rR wR store now q cid iid).2 = store := by
  rcases h with h | h
  · simp [answer_question, h]
  · have hfa : ∀ query, fetchedArticles env query = [] := by
      intro query
      simp only [fetchedArticles, fetchedPairs, h, List.filterMap_eq_nil_iff,
        Prod.forall]
      intro a b hab
      simp only [List.mem_map] at hab
      obtain ⟨r, _, heq⟩ := hab
      cases heq
      rfl
    simp only [answer_question, hfa]
    split
    · rfl
    · simp

/-- **C10** witness: a concrete no-results run with both ids supplied
leaves a non-empty store exactly as it was. -/
theorem C10_witness :
    (answer_question envNoResults false false [rowParis] 3 "anything"
      (some "c1") (some 1)).2 = [rowParis] :=
  C10_early_returns_no_write envNoResults false false [rowParis] 3 "anything"
    (some "c1") (some 1) (Or.inl fun _ => rfl)
